import Mathlib

/-!
Verification of taiga/projects/custom_attributes/validators.py.

The file embeds the two validators of the source module:
  * `BaseCustomAttributeValidator._validate_integrity_between_project_and_name`
    (definition-uniqueness check), and
  * `BaseCustomAttributesValuesValidator.validate_attributes_values`
    together with its static helper `validate_estimation`
    (values-payload validation and estimation normalization),
and proves or refutes the specification claims about them.

The Django ORM is modelled as an in-memory list of attribute-definition
records; each ORM query in the source corresponds to a filter over that
list, and the value validator also reports how many repository queries it
issued before returning, which some claims are about.
-/

namespace TaigaCustomAttributes

/-! ## Estimation normalizer: `validate_estimation`

Python source, lines 104-117:

    regular_expression = '([0-9]+w)*([0-9]+d)*([0-9]+h)*'
    timestamps = [int('0' + item[:-1]) for item in re.findall(regular_expression, value)[0]]
    while timestamps[2] >= 8: timestamps[2] -= 8; timestamps[1] += 1
    while timestamps[1] >= 5: timestamps[1] -= 5; timestamps[0] += 1
    render each component if positive, join

`re.findall(...)[0]` is the tuple of the three captured groups of the first
match.  The whole pattern can match the empty string, so the first match is
the (greedy) match at position 0: as many `<digits>w` tokens as possible,
then `<digits>d` tokens, then `<digits>h` tokens, each group capturing its
last repetition (or the empty string when it matched zero times, which
`int('0' + ...)` turns into 0).  The remainder of the input is ignored and
the function never raises on a string argument.
-/

/-- Maximal digit prefix of a character list, with the remainder. -/
def splitDigits : List Char → List Char × List Char
  | [] => ([], [])
  | c :: cs =>
    if c.isDigit then
      let p := splitDigits cs
      (c :: p.1, p.2)
    else ([], c :: cs)

/-- Decimal value of a digit-character list (the value of `int(...)` on it). -/
def digitsVal (l : List Char) : Nat :=
  l.foldl (fun a c => a * 10 + (c.toNat - 48)) 0

/-- One `<digits>u` token of the regular expression: a nonempty maximal digit
run followed by the unit character `u`; returns the numeric capture and the
rest of the input. -/
def parseToken (u : Char) (s : List Char) : Option (Nat × List Char) :=
  let p := splitDigits s
  match p.2 with
  | [] => none
  | c :: rest => if p.1 ≠ [] ∧ c = u then some (digitsVal p.1, rest) else none

/-- Greedy repetition `(<digits>u)*`, capturing the last repetition
(`cap` is the capture so far, 0 standing for an empty capture).
Fuelled; each iteration consumes at least two characters, so fuel equal to
the input length is always enough. -/
def parseGroupF (u : Char) : Nat → Nat → List Char → Nat × List Char
  | 0, cap, s => (cap, s)
  | fuel + 1, cap, s =>
    match parseToken u s with
    | some (n, rest) => parseGroupF u fuel n rest
    | none => (cap, s)

def parseGroup (u : Char) (cap : Nat) (s : List Char) : Nat × List Char :=
  parseGroupF u s.length cap s

/-- The three captured groups of the first match of
`([0-9]+w)*([0-9]+d)*([0-9]+h)*` on the input, as numbers
(weeks, days, hours), empty captures giving 0. -/
def reGroups (s : List Char) : Nat × Nat × Nat :=
  let pw := parseGroup 'w' 0 s
  let pd := parseGroup 'd' 0 pw.2
  let ph := parseGroup 'h' 0 pd.2
  (pw.1, pd.1, ph.1)

/-- The first while loop: while hours >= 8, hours -= 8, days += 1.
Fuelled by the hour count, which strictly exceeds the iteration count. -/
def carryHoursF : Nat → Nat → Nat → Nat × Nat
  | 0, d, h => (d, h)
  | fuel + 1, d, h => if 8 ≤ h then carryHoursF fuel (d + 1) (h - 8) else (d, h)

def carryHours (d h : Nat) : Nat × Nat := carryHoursF h d h

/-- The second while loop: while days >= 5, days -= 5, weeks += 1. -/
def carryDaysF : Nat → Nat → Nat → Nat × Nat
  | 0, w, d => (w, d)
  | fuel + 1, w, d => if 5 ≤ d then carryDaysF fuel (w + 1) (d - 5) else (w, d)

def carryDays (w d : Nat) : Nat × Nat := carryDaysF d w d

/-- Decimal digit characters of a natural number, as produced by Python
`str` on a nonnegative int.  Fuelled; fuel `n + 1` is always enough. -/
def natDigitsF : Nat → Nat → List Char
  | 0, _ => []
  | fuel + 1, n =>
    if n < 10 then [Char.ofNat (48 + n)]
    else natDigitsF fuel (n / 10) ++ [Char.ofNat (48 + n % 10)]

def natDigits (n : Nat) : List Char := natDigitsF (n + 1) n

/-- Rendering of the normalized triple, lines 114-117 of the source:
each component is emitted as `<n><unit>` only when positive, in
week-day-hour order, with no separators. -/
def renderEst (w d h : Nat) : List Char :=
  (if 0 < w then natDigits w ++ ['w'] else [])
    ++ (if 0 < d then natDigits d ++ ['d'] else [])
    ++ (if 0 < h then natDigits h ++ ['h'] else [])

/-- `BaseCustomAttributesValuesValidator.validate_estimation` (lines 103-117). -/
def validate_estimation (value : String) : String :=
  let t := reGroups value.data
  let dh := carryHours t.2.1 t.2.2
  let wd := carryDays t.1 dh.1
  String.mk (renderEst wd.1 wd.2 dh.2)

/-- The duration grammar of the specification: optional `<int>w`, optional
`<int>d`, optional `<int>h`, in that order, and nothing else. -/
def grammarCheck (s : List Char) : Bool :=
  let s1 := match parseToken 'w' s with | some p => p.2 | none => s
  let s2 := match parseToken 'd' s1 with | some p => p.2 | none => s1
  let s3 := match parseToken 'h' s2 with | some p => p.2 | none => s2
  s3.isEmpty

def inGrammar (s : String) : Bool := grammarCheck s.data

/-! ## Data model

Attribute-definition records of the four entity kinds.  The four model
classes `EpicCustomAttribute`, `UserStoryCustomAttribute`,
`TaskCustomAttribute`, `IssueCustomAttribute` are represented as one record
type tagged with its entity kind; the repository is a list of records and
each ORM query is a filter over it. -/

inductive EntityKind where
  | epic
  | userstory
  | task
  | issue
deriving DecidableEq, Repr

structure AttrDef where
  id : Nat
  project : Nat
  name : String
  kind : EntityKind
  type : String
deriving DecidableEq, Repr

/-! ## Definition-uniqueness validator

`BaseCustomAttributeValidator._validate_integrity_between_project_and_name`
(lines 40-62).  `attrs` is the proposed partial change (a field is `none`
when absent from `attrs`), `obj` is `self.object` (the existing record on
an update, `none` on a create).  The fallback on lines 52-54 uses the
Python `or` operator, so it is driven by truthiness, not by absence:
`0` is a falsy int and `""` a falsy str, while a model instance (the
`project` field holds a `Project` instance) is always truthy. -/

structure DefMutation where
  id : Option Nat
  name : Option String
  project : Option Nat
deriving DecidableEq, Repr

structure ExistingDef where
  id : Nat
  name : String
  project : Nat
deriving DecidableEq, Repr

/-- `data_id = attrs.get("id", None); if self.object: data_id = data_id or self.object.id`. -/
def resolvedId (a : Option Nat) (obj : Option ExistingDef) : Option Nat :=
  match obj with
  | none => a
  | some e => some (match a with
      | some n => if n ≠ 0 then n else e.id
      | none => e.id)

/-- Same fallback for `name`; the empty string is falsy. -/
def resolvedName (a : Option String) (obj : Option ExistingDef) : Option String :=
  match obj with
  | none => a
  | some e => some (match a with
      | some s => if s ≠ "" then s else e.name
      | none => e.name)

/-- Same fallback for `project`; a present value is a model instance and
hence always truthy in Python. -/
def resolvedProject (a : Option Nat) (obj : Option ExistingDef) : Option Nat :=
  match obj with
  | none => a
  | some e => some (match a with
      | some p => p
      | none => e.project)

/-- Lines 56-60: `model.objects.filter(project=data_project, name=data_name)
.exclude(id=data_id)` followed by `qs.exists()`; the result is `true` when
the check raises the duplicate-name `ValidationError`.  A `filter` against
`None` matches nothing (SQL `IS NULL` on a non-null column) and an
`exclude(id=None)` excludes nothing. -/
def validate_integrity_between_project_and_name (repo : List AttrDef) (kind : EntityKind)
    (attrs : DefMutation) (obj : Option ExistingDef) : Bool :=
  let dId := resolvedId attrs.id obj
  let dName := resolvedName attrs.name obj
  let dProject := resolvedProject attrs.project obj
  let qs := repo.filter (fun r =>
    decide (r.kind = kind ∧ some r.project = dProject ∧ some r.name = dName))
  let qs2 := qs.filter (fun r => decide (¬ some r.id = dId))
  !qs2.isEmpty

/-! ## Values-payload validator

`BaseCustomAttributesValuesValidator.validate_attributes_values`
(lines 119-148).  The incoming `attrs['attributes_values']` is a
dynamically-typed JSON value; the cases the claims are about are a dict of
string keys to string values, a string, and an int (the latter two being
non-dict shapes).  `self.object` is the existing values record, whose
container link supplies the project id fallback.  Besides the ORM result,
the validator below also returns how many repository queries were issued
before it returned: the `UserStoryCustomAttribute.objects.all()` list
comprehension on line 120 is one query and `qs.count()` on line 146 is a
second. -/

inductive PyVal where
  | dict : List (String × String) → PyVal
  | str : String → PyVal
  | int : Int → PyVal
deriving DecidableEq, Repr

/-- Python truthiness of the modelled values: empty dict, empty string and
zero are falsy. -/
def PyVal.truthy : PyVal → Bool
  | .dict l => !l.isEmpty
  | .str s => !(s.data.isEmpty)
  | .int n => decide (n ≠ 0)

/-- `type(x) is dict`. -/
def PyVal.isDict : PyVal → Bool
  | .dict _ => true
  | _ => false

structure Container where
  project_id : Nat
deriving DecidableEq, Repr

/-- The existing values record, `self.object`: its stored mapping and the
container object reached through `getattr(self.object, container_field)`. -/
structure ValuesObj where
  attributes_values : PyVal
  container : Container
deriving DecidableEq, Repr

/-- The proposed change `attrs`: the `attributes_values` entry (absent when
`none`) and the container entry under `self._container_field`. -/
structure ValuesAttrs where
  attributes_values : Option PyVal
  container : Option Container
deriving DecidableEq, Repr

/-- Errors the method can terminate with.  `pyExn` stands for an uncaught
plain Python exception (`ValueError`, `TypeError` or `KeyError`), as
opposed to the two `ValidationError`s the method raises itself. -/
inductive VError where
  | invalidPayloadShape
  | unknownAttributeReference
  | pyExn
deriving DecidableEq, Repr

inductive VRes (α : Type) where
  | ok : α → VRes α
  | error : VError → VRes α
deriving DecidableEq, Repr

/-- Python `int(s)` on a string: optional sign followed by a nonempty digit
run; anything else raises `ValueError` (`none`). -/
def pyInt (s : String) : Option Int :=
  match s.data with
  | [] => none
  | '-' :: rest =>
    let p := splitDigits rest
    if p.1 ≠ [] ∧ p.2 = [] then some (-(digitsVal p.1 : Int)) else none
  | '+' :: rest =>
    let p := splitDigits rest
    if p.1 ≠ [] ∧ p.2 = [] then some (digitsVal p.1 : Int) else none
  | l =>
    let p := splitDigits l
    if p.1 ≠ [] ∧ p.2 = [] then some (digitsVal p.1 : Int) else none

/-- `estimate_field_ids` (line 120): ids of all `UserStoryCustomAttribute`
rows whose `type` is `"est"` — the user-story model is hard-coded here for
every entity kind. -/
def estimateFieldIds (repo : List AttrDef) : List Int :=
  (repo.filter (fun r => decide (r.kind = .userstory ∧ r.type = "est"))).map
    (fun r => (r.id : Int))

/-- Lines 121-124 on a dict: for each key in iteration order, evaluate
`int(key)` (raising `ValueError` on a non-numeric key even when the key is
not an estimation id), and when the result is in `estimate_field_ids`
replace the value with `validate_estimation(value)`. -/
def dictLoop (estIds : List Int) : List (String × String) → VRes (List (String × String))
  | [] => .ok []
  | (k, v) :: rest =>
    match pyInt k with
    | none => .error .pyExn
    | some i =>
      let v' := if estIds.contains i then validate_estimation v else v
      match dictLoop estIds rest with
      | .ok rest' => .ok ((k, v') :: rest')
      | .error e => .error e

/-- Lines 121-124 on a string value: `for key in s` iterates characters;
`int(key)` raises on a non-digit character, and the item assignment raises
`TypeError` on a digit character whose value is an estimation id. -/
def strLoop (estIds : List Int) : List Char → VRes Unit
  | [] => .ok ()
  | c :: rest =>
    match pyInt (String.mk [c]) with
    | none => .error .pyExn
    | some i => if estIds.contains i then .error .pyExn else strLoop estIds rest

/-- Lines 121-124 on the supplied `attrs['attributes_values']`: dicts are
rewritten in place, strings are iterated (read-only, erroring as above),
ints are not iterable (`TypeError`). -/
def runLoop (estIds : List Int) : PyVal → VRes PyVal
  | .dict l =>
    match dictLoop estIds l with
    | .ok l' => .ok (.dict l')
    | .error e => .error e
  | .str s =>
    match strLoop estIds s.data with
    | .ok _ => .ok (.str s)
    | .error e => .error e
  | .int _ => .error .pyExn

/-- Lines 126-128: `data_values = attrs.get("attributes_values", None);
if self.object: data_values = (data_values or self.object.attributes_values)`.
(In the method itself this runs on the already-rewritten dict; rewriting
changes neither the shape nor the truthiness of the value.) -/
def effectiveValues (supplied : Option PyVal) (obj : Option ValuesObj) : Option PyVal :=
  match obj with
  | none => supplied
  | some o => some (match supplied with
      | some v => if v.truthy then v else o.attributes_values
      | none => o.attributes_values)

/-- Lines 134-140: the effective project id — the project of the container
supplied in `attrs` when present (a model instance, always truthy), else
the project of the existing record's container, else `None`. -/
def effectiveProjectId (attrs : ValuesAttrs) (obj : Option ValuesObj) : Option Nat :=
  match attrs.container with
  | some c => some c.project_id
  | none =>
    match obj with
    | some o => some o.container.project_id
    | none => none

/-- Lines 143-145: `qs.count()` for
`filter(project=project_id, id__in=values_ids)` on the validator's own
`_custom_attribute_model`.  The string ids in `id__in` are coerced to
integers by the ORM exactly as `int` does; this count is only consulted
when every id coerces — a non-coercible id makes the ORM raise
`ValueError` while compiling the query (the guard in
`validate_attributes_values` below), so in the region where this
definition is used `filterMap` drops nothing. -/
def refCount (kind : EntityKind) (repo : List AttrDef) (projectId : Option Nat)
    (valuesIds : List String) : Nat :=
  (repo.filter (fun r =>
    decide (r.kind = kind ∧ some r.project = projectId ∧
      (valuesIds.filterMap pyInt).contains (r.id : Int) = true))).length

/-- `validate_attributes_values` (lines 119-148), for the validator class of
entity kind `kind`.  Returns the outcome (the returned `attrs`, with the
dict rewritten in place, or the error) together with the number of
repository queries issued before returning.

The queryset built on lines 143-144 is lazy: when some key of the
effective mapping does not coerce to an integer, `qs.count()` on line 146
raises `ValueError` while adapting the `id__in` parameters, before any SQL
is issued, so that path fails with a plain exception after only the
line-120 query.  It is reachable — only through the stored-mapping
fallback of line 128, since the keys of a supplied dict already went
through `int(key)` on line 123. -/
def validate_attributes_values (kind : EntityKind) (repo : List AttrDef)
    (attrs : ValuesAttrs) (obj : Option ValuesObj) : VRes ValuesAttrs × Nat :=
  match attrs.attributes_values with
  | none => (.error .pyExn, 1)
  | some av =>
    match runLoop (estimateFieldIds repo) av with
    | .error e => (.error e, 1)
    | .ok av' =>
      match effectiveValues (some av') obj with
      | some (.dict l) =>
        if (l.map Prod.fst).all (fun k => (pyInt k).isSome) then
          if refCount kind repo (effectiveProjectId attrs obj) (l.map Prod.fst)
              ≠ (l.map Prod.fst).length
          then (.error .unknownAttributeReference, 2)
          else (.ok { attrs with attributes_values := some av' }, 2)
        else (.error .pyExn, 1)
      | _ => (.error .invalidPayloadShape, 1)

/-! ## Theorems -/

example : validate_estimation "0h" = "" := by decide
example : validate_estimation "9h" = "1d1h" := by decide
example : validate_estimation "5d" = "1w" := by decide
example : validate_estimation "40h" = "1w" := by decide
example : validate_estimation "abc" = "" := by decide
example : validate_estimation "2w3d1h" = "2w3d1h" := by decide
example : validate_estimation "13h" = "1d5h" := by decide
example : inGrammar "2w3d1h" = true := by decide
example : inGrammar "abc" = false := by decide
example : inGrammar "" = true := by decide

/-- Helper: a filtered list is nonempty exactly when some member of the
original list satisfies the filter predicate. -/
theorem exists_mem_filter {α : Type} (p : α → Bool) (l : List α) :
    (!(l.filter p).isEmpty) = true ↔ ∃ x ∈ l, p x = true := by
  induction l with
  | nil => simp
  | cons a l ih =>
    by_cases h : p a = true
    · simp only [List.filter_cons, if_pos h, List.isEmpty_cons, Bool.not_false]
      exact iff_of_true trivial ⟨a, List.mem_cons_self a l, h⟩
    · simp only [List.filter_cons, if_neg h, ih]
      constructor
      · rintro ⟨x, hx, hpx⟩
        exact ⟨x, List.mem_cons_of_mem a hx, hpx⟩
      · rintro ⟨x, hx, hpx⟩
        rcases List.mem_cons.mp hx with rfl | hx
        · exact absurd hpx h
        · exact ⟨x, hx, hpx⟩

/-! ### Estimation normalizer lemmas -/

/-- The first while loop computes division with remainder by 8. -/
theorem carryHoursF_eq (f : Nat) : ∀ d h, h ≤ f → carryHoursF f d h = (d + h / 8, h % 8) := by
  induction f with
  | zero =>
    intro d h hh
    have : h = 0 := Nat.le_zero.mp hh
    subst this
    rfl
  | succ f ih =>
    intro d h hh
    by_cases h8 : 8 ≤ h
    · rw [carryHoursF, if_pos h8, ih (d + 1) (h - 8) (by omega)]
      simp only [Prod.mk.injEq]
      constructor <;> omega
    · rw [carryHoursF, if_neg h8]
      simp only [Prod.mk.injEq]
      constructor <;> omega

theorem carryHours_eq (d h : Nat) : carryHours d h = (d + h / 8, h % 8) :=
  carryHoursF_eq h d h le_rfl

/-- The second while loop computes division with remainder by 5. -/
theorem carryDaysF_eq (f : Nat) : ∀ w d, d ≤ f → carryDaysF f w d = (w + d / 5, d % 5) := by
  induction f with
  | zero =>
    intro w d hd
    have : d = 0 := Nat.le_zero.mp hd
    subst this
    rfl
  | succ f ih =>
    intro w d hd
    by_cases h5 : 5 ≤ d
    · rw [carryDaysF, if_pos h5, ih (w + 1) (d - 5) (by omega)]
      simp only [Prod.mk.injEq]
      constructor <;> omega
    · rw [carryDaysF, if_neg h5]
      simp only [Prod.mk.injEq]
      constructor <;> omega

theorem carryDays_eq (w d : Nat) : carryDays w d = (w + d / 5, d % 5) :=
  carryDaysF_eq d w d le_rfl

/-- Character facts for the ten decimal digits. -/
theorem digitChar_spec (m : Nat) (hm : m < 10) :
    (Char.ofNat (48 + m)).isDigit = true ∧ (Char.ofNat (48 + m)).toNat = 48 + m := by
  interval_cases m <;> exact ⟨by decide, by decide⟩

/-- `natDigitsF` does not depend on the fuel once the fuel exceeds the number. -/
theorem natDigitsF_fuel (f : Nat) : ∀ g n, n < f → n < g → natDigitsF f n = natDigitsF g n := by
  induction f with
  | zero => intro g n h; omega
  | succ f ih =>
    intro g n hf hg
    obtain ⟨g', rfl⟩ : ∃ g', g = g' + 1 := ⟨g - 1, by omega⟩
    by_cases h10 : n < 10
    · rw [natDigitsF, natDigitsF, if_pos h10, if_pos h10]
    · have hdiv : n / 10 < n := Nat.div_lt_self (by omega) (by omega)
      rw [natDigitsF, natDigitsF, if_neg h10, if_neg h10,
        ih g' (n / 10) (by omega) (by omega)]

theorem natDigits_unfold (n : Nat) :
    natDigits n = if n < 10 then [Char.ofNat (48 + n)]
      else natDigits (n / 10) ++ [Char.ofNat (48 + n % 10)] := by
  by_cases h10 : n < 10
  · rw [natDigits, natDigitsF, if_pos h10, if_pos h10]
  · have hdiv : n / 10 < n := Nat.div_lt_self (by omega) (by omega)
    rw [natDigits, natDigitsF, if_neg h10, if_neg h10, natDigits,
      natDigitsF_fuel n (n / 10 + 1) (n / 10) (by omega) (by omega)]

theorem natDigits_ne_nil (n : Nat) : natDigits n ≠ [] := by
  rw [natDigits_unfold]
  by_cases h10 : n < 10
  · rw [if_pos h10]; simp
  · rw [if_neg h10]; simp

theorem natDigits_all_digits (n : Nat) : ∀ c ∈ natDigits n, c.isDigit = true := by
  induction n using Nat.strong_induction_on with
  | _ n ih =>
    intro c hc
    rw [natDigits_unfold] at hc
    by_cases h10 : n < 10
    · rw [if_pos h10] at hc
      rcases List.mem_singleton.mp hc with rfl
      exact (digitChar_spec n h10).1
    · rw [if_neg h10] at hc
      rcases List.mem_append.mp hc with h | h
      · exact ih (n / 10) (Nat.div_lt_self (by omega) (by omega)) c h
      · rcases List.mem_singleton.mp h with rfl
        exact (digitChar_spec (n % 10) (Nat.mod_lt n (by omega))).1

theorem digitsVal_singleton (c : Char) : digitsVal [c] = c.toNat - 48 := by
  simp [digitsVal]

theorem digitsVal_append_singleton (l : List Char) (c : Char) :
    digitsVal (l ++ [c]) = digitsVal l * 10 + (c.toNat - 48) := by
  simp [digitsVal, List.foldl_append]

/-- Decimal digits of `n` evaluate back to `n`. -/
theorem digitsVal_natDigits (n : Nat) : digitsVal (natDigits n) = n := by
  induction n using Nat.strong_induction_on with
  | _ n ih =>
    rw [natDigits_unfold]
    by_cases h10 : n < 10
    · rw [if_pos h10, digitsVal_singleton, (digitChar_spec n h10).2]
      omega
    · rw [if_neg h10, digitsVal_append_singleton,
        ih (n / 10) (Nat.div_lt_self (by omega) (by omega)),
        (digitChar_spec (n % 10) (Nat.mod_lt n (by omega))).2]
      omega

/-- `splitDigits` splits an all-digit block off the front, stopping at the
first non-digit character. -/
theorem splitDigits_append (l r : List Char) (hl : ∀ c ∈ l, c.isDigit = true)
    (hr : r = [] ∨ ∃ c r', r = c :: r' ∧ c.isDigit = false) :
    splitDigits (l ++ r) = (l, r) := by
  induction l with
  | nil =>
    rcases hr with rfl | ⟨c, r', rfl, hc⟩
    · rfl
    · rw [List.nil_append, splitDigits, if_neg (by simp [hc])]
  | cons a l ih =>
    have ha : a.isDigit = true := hl a (List.mem_cons_self a l)
    rw [List.cons_append, splitDigits, if_pos ha,
      ih (fun c hc => hl c (List.mem_cons_of_mem a hc))]

theorem parseToken_nil (u : Char) : parseToken u [] = none := rfl

/-- A token headed by the right unit character parses. -/
theorem parseToken_some (u : Char) (n : Nat) (rest : List Char) (hu : u.isDigit = false) :
    parseToken u (natDigits n ++ u :: rest) = some (n, rest) := by
  rw [parseToken, splitDigits_append _ _ (natDigits_all_digits n) (Or.inr ⟨u, rest, rfl, hu⟩)]
  simp [natDigits_ne_nil n, digitsVal_natDigits n]

/-- A token headed by the wrong (non-digit) unit character fails. -/
theorem parseToken_wrong_unit (u c : Char) (n : Nat) (rest : List Char)
    (hc : c.isDigit = false) (hcu : c ≠ u) :
    parseToken u (natDigits n ++ c :: rest) = none := by
  rw [parseToken, splitDigits_append _ _ (natDigits_all_digits n) (Or.inr ⟨c, rest, rfl, hc⟩)]
  simp [hcu]

/-- A token with no leading digits fails. -/
theorem parseToken_no_digits (u c : Char) (rest : List Char) (hc : c.isDigit = false) :
    parseToken u (c :: rest) = none := by
  rw [parseToken, show c :: rest = [] ++ c :: rest from rfl,
    splitDigits_append [] _ (by intro x hx; cases hx) (Or.inr ⟨c, rest, rfl, hc⟩)]
  simp

theorem parseGroupF_stop (u : Char) (f cap : Nat) (s : List Char)
    (h : parseToken u s = none) : parseGroupF u f cap s = (cap, s) := by
  cases f with
  | zero => rfl
  | succ f => rw [parseGroupF, h]

/-- A group consisting of exactly one token. -/
theorem parseGroup_single (u : Char) (n : Nat) (rest : List Char) (hu : u.isDigit = false)
    (hrest : parseToken u rest = none) :
    parseGroup u 0 (natDigits n ++ u :: rest) = (n, rest) := by
  rw [parseGroup]
  obtain ⟨k, hk⟩ : ∃ k, (natDigits n ++ u :: rest).length = k + 1 := by
    rcases hnil : natDigits n with _ | ⟨a, l⟩
    · exact absurd hnil (natDigits_ne_nil n)
    · exact ⟨l.length + (u :: rest).length, by simp [hnil]⟩
  rw [hk, parseGroupF, parseToken_some u n rest hu]
  exact parseGroupF_stop u k n rest hrest

theorem parseGroup_stop (u : Char) (s : List Char) (h : parseToken u s = none) :
    parseGroup u 0 s = (0, s) :=
  parseGroupF_stop u s.length 0 s h

/-- The day part and the hour part of a rendering. -/
def dPart (d : Nat) : List Char := if 0 < d then natDigits d ++ ['d'] else []

def hPart (h : Nat) : List Char := if 0 < h then natDigits h ++ ['h'] else []

theorem renderEst_parts (w d h : Nat) :
    renderEst w d h = (if 0 < w then natDigits w ++ ['w'] else []) ++ (dPart d ++ hPart h) := by
  rw [renderEst, dPart, hPart, List.append_assoc]

theorem parseToken_w_dh (d h : Nat) : parseToken 'w' (dPart d ++ hPart h) = none := by
  rw [dPart]
  by_cases hd : 0 < d
  · rw [if_pos hd, List.append_assoc, List.singleton_append]
    exact parseToken_wrong_unit 'w' 'd' d _ (by decide) (by decide)
  · rw [if_neg hd, List.nil_append, hPart]
    by_cases hh : 0 < h
    · rw [if_pos hh]
      exact parseToken_wrong_unit 'w' 'h' h [] (by decide) (by decide)
    · rw [if_neg hh]
      exact parseToken_nil 'w'

theorem parseToken_d_h (h : Nat) : parseToken 'd' (hPart h) = none := by
  rw [hPart]
  by_cases hh : 0 < h
  · rw [if_pos hh]
    exact parseToken_wrong_unit 'd' 'h' h [] (by decide) (by decide)
  · rw [if_neg hh]
    exact parseToken_nil 'd'

/-- Round trip: the three regex groups of a rendered triple recover the
triple, for arbitrary component values (zero components are omitted by the
rendering and default back to zero in the parse). -/
theorem reGroups_renderEst (w d h : Nat) : reGroups (renderEst w d h) = (w, d, h) := by
  have hw : parseGroup 'w' 0 (renderEst w d h) = (w, dPart d ++ hPart h) := by
    rw [renderEst_parts]
    by_cases hwpos : 0 < w
    · rw [if_pos hwpos, List.append_assoc, List.singleton_append]
      exact parseGroup_single 'w' w _ (by decide) (parseToken_w_dh d h)
    · rw [if_neg hwpos, List.nil_append, parseGroup_stop 'w' _ (parseToken_w_dh d h)]
      have hw0 : w = 0 := by omega
      rw [hw0]
  have hd : parseGroup 'd' 0 (dPart d ++ hPart h) = (d, hPart h) := by
    rw [dPart]
    by_cases hdpos : 0 < d
    · rw [if_pos hdpos, List.append_assoc, List.singleton_append]
      exact parseGroup_single 'd' d _ (by decide) (parseToken_d_h h)
    · rw [if_neg hdpos, List.nil_append, parseGroup_stop 'd' _ (parseToken_d_h h)]
      have hd0 : d = 0 := by omega
      rw [hd0]
  have hh : parseGroup 'h' 0 (hPart h) = (h, []) := by
    rw [hPart]
    by_cases hhpos : 0 < h
    · rw [if_pos hhpos]
      exact parseGroup_single 'h' h [] (by decide) (parseToken_nil 'h')
    · rw [if_neg hhpos, parseGroup_stop 'h' [] (parseToken_nil 'h')]
      have hh0 : h = 0 := by omega
      rw [hh0]
  rw [reGroups, hw]
  simp only [hd, hh]

/-- A rendered triple always lies in the duration grammar. -/
theorem grammarCheck_renderEst (w d h : Nat) : grammarCheck (renderEst w d h) = true := by
  have hw : (match parseToken 'w' (renderEst w d h) with
      | some p => p.2 | none => renderEst w d h) = dPart d ++ hPart h := by
    rw [renderEst_parts]
    by_cases hwpos : 0 < w
    · rw [if_pos hwpos, List.append_assoc, List.singleton_append,
        parseToken_some 'w' w _ (by decide)]
    · rw [if_neg hwpos, List.nil_append, parseToken_w_dh d h]
  have hd : (match parseToken 'd' (dPart d ++ hPart h) with
      | some p => p.2 | none => dPart d ++ hPart h) = hPart h := by
    rw [dPart]
    by_cases hdpos : 0 < d
    · rw [if_pos hdpos, List.append_assoc, List.singleton_append,
        parseToken_some 'd' d _ (by decide)]
    · rw [if_neg hdpos, List.nil_append, parseToken_d_h h]
  have hh : (match parseToken 'h' (hPart h) with
      | some p => p.2 | none => hPart h) = [] := by
    rw [hPart]
    by_cases hhpos : 0 < h
    · rw [if_pos hhpos, parseToken_some 'h' h [] (by decide)]
    · rw [if_neg hhpos, parseToken_nil 'h']
  rw [grammarCheck]
  simp only [hw, hd, hh]
  rfl

/-- Closed form of the whole normalizer: parse the three groups, carry
hours into days and days into weeks, render. -/
theorem validate_estimation_eq (v : String) :
    validate_estimation v =
      String.mk (renderEst
        ((reGroups v.data).1 + ((reGroups v.data).2.1 + (reGroups v.data).2.2 / 8) / 5)
        (((reGroups v.data).2.1 + (reGroups v.data).2.2 / 8) % 5)
        ((reGroups v.data).2.2 % 8)) := by
  unfold validate_estimation
  simp only [carryHours_eq, carryDays_eq]

/-- Running the normalizer over a rendered triple re-parses exactly the
triple and re-applies the carries. -/
theorem validate_estimation_render (w d h : Nat) :
    validate_estimation (String.mk (renderEst w d h)) =
      String.mk (renderEst (w + (d + h / 8) / 5) ((d + h / 8) % 5) (h % 8)) := by
  rw [validate_estimation_eq]
  have hdata : (String.mk (renderEst w d h)).data = renderEst w d h := rfl
  rw [hdata, reGroups_renderEst]

/-- The normalizer fixes every rendering whose days and hours are already
below the carry thresholds. -/
theorem validate_estimation_render_canon (w d h : Nat) (hd : d < 5) (hh : h < 8) :
    validate_estimation (String.mk (renderEst w d h)) = String.mk (renderEst w d h) := by
  rw [validate_estimation_render]
  have e1 : w + (d + h / 8) / 5 = w := by omega
  have e2 : (d + h / 8) % 5 = d := by omega
  have e3 : h % 8 = h := by omega
  rw [e1, e2, e3]

/-- C2: the normalizer parses the week/day/hour components (missing ones
defaulting to 0), repeatedly carries 8 hours into 1 day and 5 days into
1 week (the loops compute division with remainder), and renders nonzero
components in week-day-hour order; the four concrete values of the claim
hold. -/
theorem estimation_normalizer_behavior :
    validate_estimation "0h" = "" ∧ validate_estimation "9h" = "1d1h" ∧
    validate_estimation "5d" = "1w" ∧ validate_estimation "40h" = "1w" ∧
    (∀ d h, carryHours d h = (d + h / 8, h % 8)) ∧
    (∀ w d, carryDays w d = (w + d / 5, d % 5)) :=
  ⟨by decide, by decide, by decide, by decide, carryHours_eq, carryDays_eq⟩

/-- Counterexample to C3 as stated: on inputs outside the duration grammar
(a non-numeric string, a negative component) the normalizer does not fail
with `MalformedEstimation` — it returns a string.  The regular expression
matches the empty string at position 0, so `re.findall(...)[0]` always
exists and every component defaults to 0. -/
theorem malformed_estimation_counterexample :
    inGrammar "abc" = false ∧ validate_estimation "abc" = "" ∧
    inGrammar "-5h" = false ∧ validate_estimation "-5h" = "" ∧
    inGrammar "9x" = false ∧ validate_estimation "9x" = "" := by
  refine ⟨by decide, by decide, by decide, by decide, by decide, by decide⟩

/-- C3 amended: the normalizer is total on strings and never signals a
failure; whatever the input, it parses the leading grammar-conforming
tokens (everything else contributing 0 or being ignored) and returns a
string that itself lies in the duration grammar. -/
theorem normalizer_never_fails (s : String) :
    inGrammar (validate_estimation s) = true := by
  rw [validate_estimation_eq]
  exact grammarCheck_renderEst _ _ _

/-- C4: the normalizer is idempotent on every grammar-valid input. -/
theorem normalize_idempotent (s : String) (hs : inGrammar s = true) :
    validate_estimation (validate_estimation s) = validate_estimation s := by
  rw [validate_estimation_eq s]
  exact validate_estimation_render_canon _ _ _ (by omega) (by omega)

/-- Witness for C4 at a concrete grammar-valid input. -/
theorem normalize_idempotent_witness :
    inGrammar "9h" = true ∧
    validate_estimation (validate_estimation "9h") = validate_estimation "9h" :=
  ⟨by decide, normalize_idempotent "9h" (by decide)⟩

/-- C1: after field resolution, the uniqueness check raises the
duplicate-name error if and only if some other record of the same entity
kind has the resolved project and the resolved name but a different id;
consequently a rename to the record's own current name passes (when the
uniqueness invariant holds in the repository), and a create reusing a name
that only appears in other projects passes. -/
theorem uniqueness_check_correct (repo : List AttrDef) (kind : EntityKind)
    (attrs : DefMutation) (obj : Option ExistingDef) :
    (validate_integrity_between_project_and_name repo kind attrs obj = true ↔
      ∃ r ∈ repo, r.kind = kind ∧ some r.project = resolvedProject attrs.project obj ∧
        some r.name = resolvedName attrs.name obj ∧ some r.id ≠ resolvedId attrs.id obj) ∧
    (∀ e, obj = some e → attrs = ⟨none, some e.name, none⟩ →
      (∀ r ∈ repo, r.kind = kind → r.project = e.project → r.name = e.name → r.id = e.id) →
      validate_integrity_between_project_and_name repo kind attrs obj = false) ∧
    (∀ n p, obj = none → attrs = ⟨none, some n, some p⟩ →
      (∀ r ∈ repo, r.kind = kind → r.name = n → r.project ≠ p) →
      validate_integrity_between_project_and_name repo kind attrs obj = false) := by
  have hmain : validate_integrity_between_project_and_name repo kind attrs obj = true ↔
      ∃ r ∈ repo, r.kind = kind ∧ some r.project = resolvedProject attrs.project obj ∧
        some r.name = resolvedName attrs.name obj ∧ some r.id ≠ resolvedId attrs.id obj := by
    unfold validate_integrity_between_project_and_name
    simp only [List.filter_filter]
    rw [exists_mem_filter]
    constructor
    · rintro ⟨r, hr, hcond⟩
      simp only [Bool.and_eq_true, decide_eq_true_eq] at hcond
      exact ⟨r, hr, hcond.2.1, hcond.2.2.1, hcond.2.2.2, hcond.1⟩
    · rintro ⟨r, hr, h1, h2, h3, h4⟩
      refine ⟨r, hr, ?_⟩
      simp only [Bool.and_eq_true, decide_eq_true_eq]
      exact ⟨h4, h1, h2, h3⟩
  refine ⟨hmain, ?_, ?_⟩
  · rintro e rfl rfl huniq
    rw [← Bool.not_eq_true, hmain]
    rintro ⟨r, hr, hk, hp, hn, hid⟩
    have hres : resolvedName (some e.name) (some e) = some e.name := by
      simp only [resolvedName]
      by_cases h : e.name = "" <;> simp [h]
    rw [hres] at hn
    simp only [resolvedProject, Option.some.injEq] at hp hn
    apply hid
    simp only [resolvedId]
    have := huniq r hr hk hp hn
    simp [this]
  · rintro n p rfl rfl hother
    rw [← Bool.not_eq_true, hmain]
    rintro ⟨r, hr, hk, hp, hn, _⟩
    simp only [resolvedProject, resolvedName, Option.some.injEq] at hp hn
    exact hother r hr hk hn hp

/-- Witness for C1: a two-record repository; renaming record 1 to its own
name passes and a cross-project create reusing the name passes, while a
same-project duplicate create fails. -/
theorem uniqueness_check_correct_witness :
    validate_integrity_between_project_and_name
      [⟨1, 1, "size", .epic, "text"⟩, ⟨2, 1, "prio", .epic, "text"⟩] .epic
      ⟨none, some "size", none⟩ (some ⟨1, "size", 1⟩) = false ∧
    validate_integrity_between_project_and_name
      [⟨1, 1, "size", .epic, "text"⟩, ⟨2, 1, "prio", .epic, "text"⟩] .epic
      ⟨none, some "size", some 2⟩ none = false ∧
    validate_integrity_between_project_and_name
      [⟨1, 1, "size", .epic, "text"⟩, ⟨2, 1, "prio", .epic, "text"⟩] .epic
      ⟨none, some "size", some 1⟩ none = true := by
  refine ⟨?_, ?_, ?_⟩
  · exact (uniqueness_check_correct _ .epic _ _).2.1 ⟨1, "size", 1⟩ rfl rfl (by decide)
  · exact (uniqueness_check_correct _ .epic _ _).2.2 "size" 2 rfl rfl (by decide)
  · exact ((uniqueness_check_correct _ .epic _ _).1).2
      ⟨⟨1, 1, "size", .epic, "text"⟩, by decide, by decide, by decide, by decide, by decide⟩

/-- Counterexample to C8 as stated: the `name` field is present in the
proposed change (as the empty string) yet resolves to the existing
record's name, because the fallback on lines 52-54 is the Python `or`,
taken on any falsy value, not only on absence. -/
theorem field_resolution_counterexample :
    resolvedName (some "") (some ⟨5, "current", 3⟩) = some "current" ∧
    some "current" ≠ (some "" : Option String) ∧
    resolvedId (some 0) (some ⟨5, "current", 3⟩) = some 5 ∧
    some 5 ≠ (some 0 : Option Nat) := by
  refine ⟨by decide, by decide, by decide, by decide⟩

/-- C8 amended: a field that is absent from the proposed change, or present
with a falsy value (id 0, empty name), resolves to the existing record's
value; a present truthy id or name, and any present project (a model
instance, always truthy), resolve to the proposed value; with no existing
record every field keeps its proposed value, falsy or not. -/
theorem field_resolution_truthiness :
    (∀ e, resolvedId none (some e) = some e.id) ∧
    (∀ e n, n ≠ 0 → resolvedId (some n) (some e) = some n) ∧
    (∀ e, resolvedId (some 0) (some e) = some e.id) ∧
    (∀ a, resolvedId a none = a) ∧
    (∀ e, resolvedName none (some e) = some e.name) ∧
    (∀ e s, s ≠ "" → resolvedName (some s) (some e) = some s) ∧
    (∀ e, resolvedName (some "") (some e) = some e.name) ∧
    (∀ a, resolvedName a none = a) ∧
    (∀ e, resolvedProject none (some e) = some e.project) ∧
    (∀ e p, resolvedProject (some p) (some e) = some p) ∧
    (∀ a, resolvedProject a none = a) := by
  refine ⟨fun e => rfl, fun e n hn => by simp [resolvedId, hn], fun e => rfl, fun a => rfl,
    fun e => rfl, fun e s hs => by simp [resolvedName, hs], fun e => rfl, fun a => rfl,
    fun e => rfl, fun e p => rfl, fun a => rfl⟩

/-- Witness for C8 (amended): concrete resolutions under an existing record. -/
theorem field_resolution_truthiness_witness :
    resolvedId (some 7) (some ⟨5, "current", 3⟩) = some 7 ∧
    resolvedName (some "new") (some ⟨5, "current", 3⟩) = some "new" := by
  exact ⟨field_resolution_truthiness.2.1 ⟨5, "current", 3⟩ 7 (by decide),
    field_resolution_truthiness.2.2.2.2.2.1 ⟨5, "current", 3⟩ "new" (by decide)⟩

/-! ### Values-payload validator lemmas -/

/-- What the in-place loop does to one dict entry, when it does not raise:
the value is replaced by its normalization exactly when `int(key)` is an
estimation-definition id. -/
def rewriteEntry (estIds : List Int) (kv : String × String) : String × String :=
  (kv.1, match pyInt kv.1 with
    | some i => if estIds.contains i then validate_estimation kv.2 else kv.2
    | none => kv.2)

theorem dictLoop_ok_map (estIds : List Int) :
    ∀ l l', dictLoop estIds l = .ok l' → l' = l.map (rewriteEntry estIds) := by
  intro l
  induction l with
  | nil =>
    intro l' h
    cases h
    rfl
  | cons kv rest ih =>
    intro l' h
    obtain ⟨k, v⟩ := kv
    rcases hpk : pyInt k with _ | i
    · rw [dictLoop, hpk] at h
      cases h
    · rw [dictLoop, hpk] at h
      rcases hrest : dictLoop estIds rest with rest' | e <;> rw [hrest] at h
      · cases h
        rw [List.map_cons, ← ih rest' hrest, rewriteEntry, hpk]
      · cases h

theorem dictLoop_keys (estIds : List Int) (l l' : List (String × String))
    (h : dictLoop estIds l = .ok l') : l'.map Prod.fst = l.map Prod.fst := by
  rw [dictLoop_ok_map estIds l l' h, List.map_map]
  exact List.map_congr_left (fun kv _ => rfl)

theorem dictLoop_length (estIds : List Int) (l l' : List (String × String))
    (h : dictLoop estIds l = .ok l') : l'.length = l.length := by
  have := congrArg List.length (dictLoop_keys estIds l l' h)
  simpa using this

theorem dictLoop_ok_of_numeric (estIds : List Int) :
    ∀ l : List (String × String), (∀ kv ∈ l, (pyInt kv.1).isSome = true) →
      ∃ l', dictLoop estIds l = .ok l' := by
  intro l
  induction l with
  | nil => intro _; exact ⟨[], rfl⟩
  | cons kv rest ih =>
    intro hnum
    obtain ⟨k, v⟩ := kv
    rcases hpk : pyInt k with _ | i
    · have := hnum (k, v) (List.mem_cons_self _ _)
      rw [hpk] at this
      cases this
    · obtain ⟨rest', hrest⟩ := ih (fun kv hkv => hnum kv (List.mem_cons_of_mem _ hkv))
      refine ⟨(k, if estIds.contains i then validate_estimation v else v) :: rest', ?_⟩
      rw [dictLoop, hpk, hrest]

theorem runLoop_ok_dict (estIds : List Int) (l : List (String × String)) (av' : PyVal)
    (h : runLoop estIds (.dict l) = .ok av') :
    ∃ l', av' = .dict l' ∧ dictLoop estIds l = .ok l' := by
  rw [runLoop] at h
  rcases hdl : dictLoop estIds l with l' | e <;> rw [hdl] at h
  · cases h
    exact ⟨l', rfl, rfl⟩
  · cases h

theorem runLoop_ok_str (estIds : List Int) (s : String) (av' : PyVal)
    (h : runLoop estIds (.str s) = .ok av') : av' = .str s := by
  rw [runLoop] at h
  rcases hsl : strLoop estIds s.data with u | e <;> rw [hsl] at h
  · cases h
    rfl
  · cases h

theorem runLoop_ok_int (estIds : List Int) (n : Int) (av' : PyVal)
    (h : runLoop estIds (.int n) = .ok av') : False := by
  rw [runLoop] at h
  cases h

/-- The in-place rewrite changes neither the dict-ness nor the truthiness
of the supplied value, so the effective value of lines 126-128 is a dict
after the loop exactly when it is a dict before it. -/
theorem effectiveValues_dict_transfer (estIds : List Int) (av av' : PyVal)
    (obj : Option ValuesObj) (hok : runLoop estIds av = .ok av')
    (m : List (String × String))
    (heff : effectiveValues (some av') obj = some (.dict m)) :
    ∃ m', effectiveValues (some av) obj = some (.dict m') := by
  cases av with
  | dict l =>
    obtain ⟨l', rfl, hdl⟩ := runLoop_ok_dict estIds l av' hok
    cases obj with
    | none => exact ⟨l, rfl⟩
    | some o =>
      have hemp : l'.isEmpty = l.isEmpty := by
        have := dictLoop_length estIds l l' hdl
        rcases l with _ | _ <;> rcases l' with _ | _ <;> simp_all
      rw [effectiveValues] at heff ⊢
      rw [PyVal.truthy] at heff ⊢
      rw [hemp] at heff
      by_cases he : l.isEmpty = true
      · rw [he] at heff ⊢
        exact ⟨m, heff⟩
      · have he2 : l.isEmpty = false := by
          cases hE : l.isEmpty
          · rfl
          · exact absurd hE he
        rw [he2]
        exact ⟨l, by simp⟩
  | str s =>
    rw [runLoop_ok_str estIds s av' hok] at heff
    exact ⟨m, heff⟩
  | int n => exact absurd hok (fun h => runLoop_ok_int estIds n av' h)

/-- C9: the normalization loop of lines 121-124, when it completes, changes
only the values of the mapping, never its keys: the key list (hence the key
set) and the length are unchanged, so the referential check of lines
142-146 runs against the original key set. -/
theorem normalization_preserves_keys (estIds : List Int) (l l' : List (String × String))
    (h : dictLoop estIds l = .ok l') :
    l'.map Prod.fst = l.map Prod.fst ∧ l'.length = l.length :=
  ⟨dictLoop_keys estIds l l' h, dictLoop_length estIds l l' h⟩

/-- Witness for C9: the loop rewrites an estimation value but leaves the
keys alone. -/
theorem normalization_preserves_keys_witness :
    ([("1", "1d1h"), ("2", "x")] : List (String × String)).map Prod.fst
        = ([("1", "9h"), ("2", "x")] : List (String × String)).map Prod.fst ∧
    ([("1", "1d1h"), ("2", "x")] : List (String × String)).length
        = ([("1", "9h"), ("2", "x")] : List (String × String)).length :=
  normalization_preserves_keys [1] [("1", "9h"), ("2", "x")]
    [("1", "1d1h"), ("2", "x")] (by decide)

/-- Counterexample to C6 as stated: for an epic payload, the definition of
the payload's own entity kind (an `EpicCustomAttribute` with estimation
type) does not cause normalization — line 120 consults
`UserStoryCustomAttribute.objects.all()` for every entity kind, so the
value `"9h"` passes through unrewritten even though its epic definition is
estimation-typed. -/
theorem estimation_lookup_kind_counterexample :
    (validate_attributes_values .epic [⟨1, 1, "effort", .epic, "est"⟩]
        ⟨some (.dict [("1", "9h")]), some ⟨1⟩⟩ none).1
      = .ok ⟨some (.dict [("1", "9h")]), some ⟨1⟩⟩ ∧
    validate_estimation "9h" = "1d1h" ∧ ("9h" : String) ≠ "1d1h" := by
  refine ⟨by decide, by decide, by decide⟩

/-- C6 amended: for every entity kind, a key's value is rewritten to its
normalized form exactly when `int(key)` is the id of a user-story
attribute definition of type `"est"` (the user-story model is hard-coded
on line 120, irrespective of the payload's kind); on success the returned
attrs carry the rewritten mapping, with the original keys, so the rewrite
happened before the referential check. -/
theorem estimation_rewrite_userstory_scoped (kind : EntityKind) (repo : List AttrDef)
    (attrs : ValuesAttrs) (obj : Option ValuesObj) (l : List (String × String))
    (attrs' : ValuesAttrs) (q : Nat)
    (hsup : attrs.attributes_values = some (.dict l))
    (hok : validate_attributes_values kind repo attrs obj = (.ok attrs', q)) :
    attrs'.attributes_values = some (.dict (l.map (rewriteEntry (estimateFieldIds repo)))) := by
  rcases hdl : dictLoop (estimateFieldIds repo) l with l'' | e
  · have hrl : runLoop (estimateFieldIds repo) (.dict l) = .ok (.dict l'') := by
      rw [runLoop, hdl]
    simp only [validate_attributes_values, hsup, hrl] at hok
    rcases heff : effectiveValues (some (.dict l'')) obj with _ | v
    · rw [heff] at hok
      simp at hok
    · rcases v with m | s | n
      · by_cases hall : (m.map Prod.fst).all (fun k => (pyInt k).isSome) = true
        · by_cases hc : refCount kind repo (effectiveProjectId attrs obj) (m.map Prod.fst)
              ≠ (m.map Prod.fst).length
          · rw [heff] at hok
            simp only [if_pos hall, if_pos hc] at hok
            simp at hok
          · rw [heff] at hok
            simp only [if_pos hall, if_neg hc] at hok
            simp only [Prod.mk.injEq, VRes.ok.injEq] at hok
            rw [← hok.1, ← dictLoop_ok_map (estimateFieldIds repo) l l'' hdl]
        · rw [heff] at hok
          simp only [if_neg hall] at hok
          simp at hok
      · rw [heff] at hok
        simp at hok
      · rw [heff] at hok
        simp at hok
  · have hrl : runLoop (estimateFieldIds repo) (.dict l) = .error e := by
      rw [runLoop, hdl]
    simp only [validate_attributes_values, hsup, hrl] at hok
    simp at hok

/-- Witness for C6 (amended): an epic payload whose key matches a
user-story estimation definition id gets rewritten. -/
theorem estimation_rewrite_userstory_scoped_witness :
    (⟨some (.dict [("1", "1d1h")]), some ⟨1⟩⟩ : ValuesAttrs).attributes_values
      = some (.dict ([("1", "9h")].map (rewriteEntry (estimateFieldIds
          [⟨1, 1, "eff", .userstory, "est"⟩, ⟨1, 1, "eff", .epic, "text"⟩])))) := by
  exact estimation_rewrite_userstory_scoped .epic
    [⟨1, 1, "eff", .userstory, "est"⟩, ⟨1, 1, "eff", .epic, "text"⟩]
    ⟨some (.dict [("1", "9h")]), some ⟨1⟩⟩ none [("1", "9h")]
    ⟨some (.dict [("1", "1d1h")]), some ⟨1⟩⟩ 2 rfl (by decide)

/-- Counterexample to C5 as stated: a payload with the non-numeric key
`"abc"` does not fail with `UnknownAttributeReference`, although the
matching count (0) differs from the number of distinct keys (1): the
earlier normalization loop raises a plain `ValueError` at `int("abc")`
before the referential check is ever reached. -/
theorem referential_check_counterexample :
    (validate_attributes_values .userstory [⟨1, 1, "field", .userstory, "text"⟩]
        ⟨some (.dict [("abc", "x")]), some ⟨1⟩⟩ none).1 = .error .pyExn ∧
    VError.pyExn ≠ VError.unknownAttributeReference ∧
    refCount .userstory [⟨1, 1, "field", .userstory, "text"⟩] (some 1) ["abc"]
      ≠ (["abc"] : List String).length := by
  refine ⟨by decide, by decide, by decide⟩

/-- C5 amended: when every key of the supplied mapping parses as an
integer (so the loop of lines 121-124 completes), the validator fails with
`UnknownAttributeReference` exactly when the number of attribute
definitions of the validator's entity kind, scoped to the effective
project id, whose id is among the keys, differs from the number of keys —
covering keys that reference another project's or a deleted definition.
A non-numeric key instead raises a plain `ValueError` earlier. -/
theorem referential_check_iff (kind : EntityKind) (repo : List AttrDef)
    (l : List (String × String)) (cont : Option Container)
    (hnodup : (l.map Prod.fst).Nodup)
    (hnum : ∀ kv ∈ l, (pyInt kv.1).isSome = true) :
    ((validate_attributes_values kind repo ⟨some (.dict l), cont⟩ none).1
        = .error .unknownAttributeReference ↔
      refCount kind repo (effectiveProjectId ⟨some (.dict l), cont⟩ none) (l.map Prod.fst)
        ≠ l.length) := by
  obtain ⟨l', hl'⟩ := dictLoop_ok_of_numeric (estimateFieldIds repo) l hnum
  have hkeys := dictLoop_keys (estimateFieldIds repo) l l' hl'
  have hrl : runLoop (estimateFieldIds repo) (.dict l) = .ok (.dict l') := by
    rw [runLoop, hl']
  have hall : (l.map Prod.fst).all (fun k => (pyInt k).isSome) = true := by
    rw [List.all_eq_true]
    intro k hk
    obtain ⟨kv, hkv, rfl⟩ := List.mem_map.mp hk
    exact hnum kv hkv
  simp only [validate_attributes_values, hrl, effectiveValues]
  rw [hkeys, List.length_map, if_pos hall]
  by_cases hc : refCount kind repo (effectiveProjectId ⟨some (.dict l), cont⟩ none)
      (l.map Prod.fst) ≠ l.length
  · rw [if_pos hc]
    exact iff_of_true rfl hc
  · rw [if_neg hc]
    exact iff_of_false (by simp) hc

/-- Witness for C5 (amended): one existing and one dangling numeric key
make the validator fail with `UnknownAttributeReference`. -/
theorem referential_check_iff_witness :
    (validate_attributes_values .userstory [⟨1, 1, "f", .userstory, "text"⟩]
        ⟨some (.dict [("1", "x"), ("2", "y")]), some ⟨1⟩⟩ none).1
      = .error .unknownAttributeReference :=
  (referential_check_iff .userstory [⟨1, 1, "f", .userstory, "text"⟩]
    [("1", "x"), ("2", "y")] (some ⟨1⟩) (by decide) (by decide)).mpr (by decide)

/-- Counterexample to C7 as stated: with a non-mapping
`attributes_values`, the failure comes only after the repository query of
line 120 was issued (query count 1, not 0); and a non-iterable non-mapping
(an int) fails with a plain `TypeError` instead of `InvalidPayloadShape`,
because the normalization loop runs before the shape check. -/
theorem shape_check_counterexample :
    validate_attributes_values .userstory [] ⟨some (.str ""), none⟩ none
      = (.error .invalidPayloadShape, 1) ∧
    (1 : Nat) ≠ 0 ∧
    validate_attributes_values .userstory [] ⟨some (.int 1), none⟩ none
      = (.error .pyExn, 1) := by
  refine ⟨by decide, by decide, by decide⟩

/-- C7 amended: when the effective `attributes_values` is not a mapping,
the validator does fail and the referential check never runs, but the
estimation-definition query of line 120 has already been issued (exactly
one query), and the failure is `InvalidPayloadShape` only when the
normalization loop over the supplied value completed without raising. -/
theorem shape_failure_after_query (kind : EntityKind) (repo : List AttrDef)
    (attrs : ValuesAttrs) (obj : Option ValuesObj)
    (h : ∀ l, effectiveValues attrs.attributes_values obj ≠ some (.dict l)) :
    (validate_attributes_values kind repo attrs obj).2 = 1 ∧
    (∃ e, (validate_attributes_values kind repo attrs obj).1 = .error e) ∧
    (∀ av av', attrs.attributes_values = some av →
      runLoop (estimateFieldIds repo) av = .ok av' →
      (validate_attributes_values kind repo attrs obj).1 = .error .invalidPayloadShape) := by
  rcases hsup : attrs.attributes_values with _ | av
  · have hv : validate_attributes_values kind repo attrs obj = (.error .pyExn, 1) := by
      simp only [validate_attributes_values, hsup]
    rw [hv]
    exact ⟨rfl, ⟨.pyExn, rfl⟩, fun av av' heq _ => nomatch heq⟩
  · rcases hrl : runLoop (estimateFieldIds repo) av with av' | e
    · have hnd : ∀ m, effectiveValues (some av') obj ≠ some (.dict m) := by
        intro m hm
        obtain ⟨m', hm'⟩ := effectiveValues_dict_transfer (estimateFieldIds repo)
          av av' obj hrl m hm
        rw [hsup] at h
        exact h m' hm'
      have hv : validate_attributes_values kind repo attrs obj
          = (.error .invalidPayloadShape, 1) := by
        simp only [validate_attributes_values, hsup, hrl]
      rw [hv]
      exact ⟨rfl, ⟨.invalidPayloadShape, rfl⟩, fun _ _ _ _ => rfl⟩
    · have hv : validate_attributes_values kind repo attrs obj = (.error e, 1) := by
        simp only [validate_attributes_values, hsup, hrl]
      rw [hv]
      refine ⟨rfl, ⟨e, rfl⟩, fun av0 av0' heq hok => ?_⟩
      cases heq
      rw [hok] at hrl
      cases hrl

/-- Witness for C7 (amended): a non-iterable non-mapping value fails after
exactly one repository query. -/
theorem shape_failure_after_query_witness :
    (validate_attributes_values .userstory [] ⟨some (.int 7), none⟩ none).2 = 1 ∧
    (∃ e, (validate_attributes_values .userstory [] ⟨some (.int 7), none⟩ none).1
      = .error e) := by
  have h := shape_failure_after_query .userstory [] ⟨some (.int 7), none⟩ none
    (fun l hl => by simp [effectiveValues] at hl)
  exact ⟨h.1, h.2.1⟩

/-- C10: when the mutation supplies an empty mapping and an existing
payload is present, the empty dict is falsy, so line 128 falls back to the
stored mapping: the shape check and the referential check are evaluated
against `self.object.attributes_values`, not against the supplied empty
mapping.  The referential check on the stored mapping comprises the two
behaviors of line 146: a stored key that does not coerce to an integer
makes `qs.count()` raise `ValueError` before issuing the query (these keys
never went through `int(key)` in this request), and with all keys coercing
the count-vs-keys comparison decides between `UnknownAttributeReference`
and success. -/
theorem empty_mapping_fallback (kind : EntityKind) (repo : List AttrDef)
    (cont : Option Container) (o : ValuesObj) :
    (o.attributes_values.isDict = false →
      validate_attributes_values kind repo ⟨some (.dict []), cont⟩ (some o)
        = (.error .invalidPayloadShape, 1)) ∧
    (∀ l, o.attributes_values = .dict l →
      validate_attributes_values kind repo ⟨some (.dict []), cont⟩ (some o)
        = (if (l.map Prod.fst).all (fun k => (pyInt k).isSome) then
             if refCount kind repo (effectiveProjectId ⟨some (.dict []), cont⟩ (some o))
                 (l.map Prod.fst) ≠ (l.map Prod.fst).length
             then (.error .unknownAttributeReference, 2)
             else (.ok ⟨some (.dict []), cont⟩, 2)
           else (.error .pyExn, 1))) := by
  obtain ⟨ov, oc⟩ := o
  constructor
  · intro hshape
    rcases ov with lv | sv | nv
    · exact Bool.noConfusion hshape
    · rfl
    · rfl
  · intro l hl
    rcases ov with lv | sv | nv <;> cases hl
    rfl

/-- Witness for C10: with a supplied empty mapping, a stored mapping whose
single key exists in the project passes with both queries issued, while a
stored mapping with a non-numeric key raises the plain coercion error
after only the first query — both outcomes determined by the stored
mapping, not the supplied one. -/
theorem empty_mapping_fallback_witness :
    validate_attributes_values .userstory [⟨1, 1, "f", .userstory, "text"⟩]
        ⟨some (.dict []), none⟩ (some ⟨.dict [("1", "x")], ⟨1⟩⟩)
      = (.ok ⟨some (.dict []), none⟩, 2) ∧
    validate_attributes_values .userstory [⟨1, 1, "f", .userstory, "text"⟩]
        ⟨some (.dict []), none⟩ (some ⟨.dict [("abc", "x")], ⟨1⟩⟩)
      = (.error .pyExn, 1) := by
  constructor
  · rw [(empty_mapping_fallback .userstory [⟨1, 1, "f", .userstory, "text"⟩] none
        ⟨.dict [("1", "x")], ⟨1⟩⟩).2 [("1", "x")] rfl]
    decide
  · rw [(empty_mapping_fallback .userstory [⟨1, 1, "f", .userstory, "text"⟩] none
        ⟨.dict [("abc", "x")], ⟨1⟩⟩).2 [("abc", "x")] rfl]
    decide

end TaigaCustomAttributes
